import Mathlib

/-!
Shallow embedding of the AMM core of the repository:
`src/contracts/contracts/SimplePoolWithLP.sol` (pool engine) and the
`PoolFactory` contract (registry).

Modelling conventions:
* `uint256` values are modelled as `Nat`.  The contracts compile with
  Solidity `^0.8.0`, whose checked arithmetic aborts the whole transaction
  on overflow or on division by zero; consequently every execution that
  completes satisfies the unbounded `Nat` semantics used here.  The one
  division the source performs with a possibly-zero divisor
  (`removeLiquidity`'s division by `totalSupply()`) is modelled with the
  checked division `divE`, which surfaces the EVM `Panic(0x12)` arithmetic
  abort as the distinguished error `Err.divisionByZero`; every other
  division site is dominated by a `require` making the divisor positive.
* A reverted call is an `Except.error`: it returns no state, matching the
  EVM's roll-back of every state change of the transaction.
* The ERC-20 ledgers of `tokenA`, `tokenB` and of the LP share token are
  total maps from addresses to balances; the pool contract itself sits at
  address `POOL`.  `safeTransferFrom`/`safeTransfer` of a standard ERC-20
  fail exactly when the source balance is insufficient.
* OpenZeppelin's `ReentrancyGuard` (an imported dependency whose source is
  not part of this repository) is modelled from the spec as an `entered`
  flag: checked at entry, set for the duration of the body, cleared at
  exit (`withGuard`).
-/

namespace SimplePool

/-- Account identifiers (EVM addresses), with `0` the zero address. -/
abbrev Addr := Nat

/-- The pool contract's own address in the token ledgers. -/
def POOL : Addr := 0

/-- Revert reasons of the pool engine, one constructor per `require` /
abort site of `SimplePoolWithLP.sol` (plus ERC-20 and arithmetic aborts). -/
inductive Err where
  /-- OpenZeppelin `ReentrancyGuard` rejection. -/
  | reentrancy
  /-- `require(totalLiquidity > MINIMUM_LIQUIDITY, "Insufficient liquidity")` -/
  | insufficientInitialLiquidity
  /-- `require(..., "Insufficient A amount")` -/
  | insufficientAAmount
  /-- `require(..., "Insufficient B amount")` -/
  | insufficientBAmount
  /-- `require(liquidity > 0, "Insufficient liquidity minted")` -/
  | noLiquidityMinted
  /-- `require(amountA > 0 && amountB > 0, "Insufficient liquidity burned")` -/
  | insufficientBurnAmount
  /-- `require(amountA >= amountAMin && amountB >= amountBMin, "Slippage too high")` -/
  | slippageExceeded
  /-- `require(amountBOut >= amountBOutMin, "Insufficient output amount")` -/
  | insufficientOutputAmount
  /-- `_getAmountOut`: `require(amountIn > 0, "Insufficient input amount")` -/
  | insufficientInputAmount
  /-- `_getAmountOut`: `require(reserveIn > 0 && reserveOut > 0, "Insufficient liquidity")` -/
  | insufficientSwapLiquidity
  /-- `_quote`: `require(amountA > 0, "Insufficient amount")` -/
  | insufficientQuoteAmount
  /-- `_quote`: `require(_reserveA > 0 && _reserveB > 0, "Insufficient liquidity")` -/
  | insufficientQuoteLiquidity
  /-- ERC-20 transfer/burn with insufficient source balance. -/
  | erc20InsufficientBalance
  /-- EVM `Panic(0x12)`: division by zero under Solidity 0.8 checked arithmetic. -/
  | divisionByZero
  deriving DecidableEq

/-- `FEE_BPS = 30` (0.3 % fee, 30 basis points). -/
def FEE_BPS : Nat := 30

/-- `MINIMUM_LIQUIDITY = 10**3`. -/
def MINIMUM_LIQUIDITY : Nat := 1000

/-- Full observable state: the pool's cached reserves, the external ERC-20
ledgers of both governed tokens, the LP-share ledger, and the reentrancy
flag of the OpenZeppelin guard. -/
structure PoolState where
  reserveA : Nat
  reserveB : Nat
  balA : Addr → Nat
  balB : Addr → Nat
  shares : Addr → Nat
  totalShares : Nat
  entered : Bool

/-- EVM division: Solidity 0.8 aborts with `Panic(0x12)` on a zero divisor. -/
def divE (n d : Nat) : Except Err Nat :=
  if d = 0 then .error .divisionByZero else .ok (n / d)

/-- Ledger update of a successful ERC-20 transfer of `amt` from `src` to
`dst` (correct also when `src = dst`, where the balance is unchanged). -/
def updBal (b : Addr → Nat) (src dst : Addr) (amt : Nat) : Addr → Nat :=
  fun a =>
    let b1 : Addr → Nat := fun x => if x = src then b x - amt else b x
    if a = dst then b1 a + amt else b1 a

/-- `tokenA.safeTransferFrom` / `safeTransfer`: fails iff `src` lacks balance. -/
def transferA (src dst : Addr) (amt : Nat) (s : PoolState) : Except Err PoolState :=
  if amt ≤ s.balA src then .ok { s with balA := updBal s.balA src dst amt }
  else .error .erc20InsufficientBalance

/-- `tokenB.safeTransferFrom` / `safeTransfer`: fails iff `src` lacks balance. -/
def transferB (src dst : Addr) (amt : Nat) (s : PoolState) : Except Err PoolState :=
  if amt ≤ s.balB src then .ok { s with balB := updBal s.balB src dst amt }
  else .error .erc20InsufficientBalance

/-- ERC-20 `_mint` on the LP share token. -/
def mintShares (dst : Addr) (amt : Nat) (s : PoolState) : PoolState :=
  { s with shares := fun a => if a = dst then s.shares a + amt else s.shares a,
           totalShares := s.totalShares + amt }

/-- ERC-20 `_burn` on the LP share token: fails iff `src` lacks shares. -/
def burnShares (src : Addr) (amt : Nat) (s : PoolState) : Except Err PoolState :=
  if amt ≤ s.shares src then
    .ok { s with shares := fun a => if a = src then s.shares a - amt else s.shares a,
                 totalShares := s.totalShares - amt }
  else .error .erc20InsufficientBalance

/-- `_update()`: resynchronise the cached reserves with the pool's actual
ERC-20 balances. -/
def update (s : PoolState) : PoolState :=
  { s with reserveA := s.balA POOL, reserveB := s.balB POOL }

/-- Modelled from the spec: OpenZeppelin's `ReentrancyGuard` (the
`nonReentrant` modifier), whose source is an imported dependency not part
of this repository.  Per the spec, every mutating operation holds an
exclusive in-progress flag for its whole duration: a call finding the flag
set is rejected (`Err.reentrancy`); otherwise the body runs with the flag
set and the flag is cleared on exit. -/
def withGuard (body : PoolState → Except Err (α × PoolState)) (s : PoolState) :
    Except Err (α × PoolState) :=
  if s.entered then .error .reentrancy
  else
    match body { s with entered := true } with
    | .error e => .error e
    | .ok (a, t) => .ok (a, { t with entered := false })

/-- `_getAmountOut(amountIn, reserveIn, reserveOut)` of `SimplePoolWithLP.sol`. -/
def getAmountOutCalc (amountIn reserveIn reserveOut : Nat) : Except Err Nat :=
  if 0 < amountIn then
    if 0 < reserveIn ∧ 0 < reserveOut then
      let amountInWithFee := amountIn * (10000 - FEE_BPS)
      .ok (amountInWithFee * reserveOut / (reserveIn * 10000 + amountInWithFee))
    else .error .insufficientSwapLiquidity
  else .error .insufficientInputAmount

/-- `_quote(amountA, _reserveA, _reserveB)` of `SimplePoolWithLP.sol`. -/
def quote (amountA rA rB : Nat) : Except Err Nat :=
  if 0 < amountA then
    if 0 < rA ∧ 0 < rB then .ok (amountA * rB / rA)
    else .error .insufficientQuoteLiquidity
  else .error .insufficientQuoteAmount

/-- `_min` of `SimplePoolWithLP.sol`. -/
def minNat (a b : Nat) : Nat := if a < b then a else b

/-- One step of the Babylonian iteration of `_sqrt`:
`while (x < z) { z = x; x = (y / x + x) / 2; }`. -/
def sqrtAux (y x z : Nat) : Nat :=
  if h : x < z then sqrtAux y ((y / x + x) / 2) x else z
termination_by z
decreasing_by exact h

/-- `_sqrt(y)` of `SimplePoolWithLP.sol` (Babylonian method). -/
def sqrtSol (y : Nat) : Nat :=
  if 3 < y then sqrtAux y (y / 2 + 1) y
  else if y ≠ 0 then 1 else 0

/-- The spec's swap-output formula, written from the spec's words:
`floor(amountIn × (10000 − 30) × reserveOut /
(reserveIn × 10000 + amountIn × (10000 − 30)))`. -/
def specAmountOut (amountIn reserveIn reserveOut : Nat) : Nat :=
  amountIn * (10000 - 30) * reserveOut / (reserveIn * 10000 + amountIn * (10000 - 30))

/-- `getAmountOut(amountIn, isTokenA)` — the external read-only quote,
evaluated against the cached reserves (no resync). -/
def getAmountOut (amountIn : Nat) (isTokenA : Bool) (s : PoolState) : Except Err Nat :=
  if isTokenA then getAmountOutCalc amountIn s.reserveA s.reserveB
  else getAmountOutCalc amountIn s.reserveB s.reserveA

/-- The branch selection and liquidity/amount computation of `addLiquidity`
(source lines 62–92), performed on the already-resynchronised state: yields
`(liquidity, amountA, amountB)` where the two amounts are the final values of
`amountADesired` / `amountBDesired` that the function will pull. -/
def addLiquidityStep (aD bD aMin bMin : Nat) (s1 : PoolState) :
    Except Err (Nat × Nat × Nat) :=
  if s1.reserveA = 0 ∧ s1.reserveB = 0 then
    if MINIMUM_LIQUIDITY < sqrtSol (aD * bD) then
      .ok (sqrtSol (aD * bD) - MINIMUM_LIQUIDITY, aD, bD)
    else .error .insufficientInitialLiquidity
  else
    match quote aD s1.reserveA s1.reserveB with
    | .error e => .error e
    | .ok bOpt =>
      if bOpt ≤ bD then
        if bMin ≤ bOpt then
          .ok (minNat (aD * s1.totalShares / s1.reserveA)
                 (bOpt * s1.totalShares / s1.reserveB), aD, bOpt)
        else .error .insufficientBAmount
      else
        match quote bD s1.reserveB s1.reserveA with
        | .error e => .error e
        | .ok aOpt =>
          if aOpt ≤ aD ∧ aMin ≤ aOpt then
            .ok (minNat (aOpt * s1.totalShares / s1.reserveA)
                   (bD * s1.totalShares / s1.reserveB), aOpt, bD)
          else .error .insufficientAAmount

/-- Body of `addLiquidity` after the reentrancy check and the initial
`_update()`: branch selection, liquidity computation, the two pulls, the
final `_update()` and the mint, in source order. -/
def addLiquidityCore (caller : Addr) (aD bD aMin bMin : Nat) (s1 : PoolState) :
    Except Err (Nat × PoolState) :=
  match addLiquidityStep aD bD aMin bMin s1 with
  | .error e => .error e
  | .ok (liquidity, amtA, amtB) =>
    if 0 < liquidity then
      match transferA caller POOL amtA s1 with
      | .error e => .error e
      | .ok s2 =>
        match transferB caller POOL amtB s2 with
        | .error e => .error e
        | .ok s3 => .ok (liquidity, mintShares caller liquidity (update s3))
    else .error .noLiquidityMinted

/-- `addLiquidity(amountADesired, amountBDesired, amountAMin, amountBMin)`. -/
def addLiquidity (caller : Addr) (aD bD aMin bMin : Nat) (s : PoolState) :
    Except Err (Nat × PoolState) :=
  withGuard (fun t => addLiquidityCore caller aD bD aMin bMin (update t)) s

/-- Body of `removeLiquidity` after the reentrancy check and the initial
`_update()`. -/
def removeLiquidityCore (caller : Addr) (liquidity aMin bMin : Nat) (recipient : Addr)
    (s1 : PoolState) : Except Err ((Nat × Nat) × PoolState) :=
  match divE (liquidity * s1.reserveA) s1.totalShares with
  | .error e => .error e
  | .ok amountA =>
    match divE (liquidity * s1.reserveB) s1.totalShares with
    | .error e => .error e
    | .ok amountB =>
      if 0 < amountA ∧ 0 < amountB then
        if aMin ≤ amountA ∧ bMin ≤ amountB then
          match burnShares caller liquidity s1 with
          | .error e => .error e
          | .ok s2 =>
            match transferA POOL recipient amountA s2 with
            | .error e => .error e
            | .ok s3 =>
              match transferB POOL recipient amountB s3 with
              | .error e => .error e
              | .ok s4 => .ok ((amountA, amountB), update s4)
        else .error .slippageExceeded
      else .error .insufficientBurnAmount

/-- `removeLiquidity(liquidity, amountAMin, amountBMin, to)`. -/
def removeLiquidity (caller : Addr) (liquidity aMin bMin : Nat) (recipient : Addr)
    (s : PoolState) : Except Err ((Nat × Nat) × PoolState) :=
  withGuard (fun t => removeLiquidityCore caller liquidity aMin bMin recipient (update t)) s

/-- Body of `swapAToB` after the reentrancy check and the initial `_update()`. -/
def swapAToBCore (caller : Addr) (amountAIn amountBOutMin : Nat) (recipient : Addr)
    (s1 : PoolState) : Except Err (Nat × PoolState) :=
  match getAmountOutCalc amountAIn s1.reserveA s1.reserveB with
  | .error e => .error e
  | .ok amountBOut =>
    if amountBOutMin ≤ amountBOut then
      match transferA caller POOL amountAIn s1 with
      | .error e => .error e
      | .ok s2 =>
        match transferB POOL recipient amountBOut s2 with
        | .error e => .error e
        | .ok s3 => .ok (amountBOut, update s3)
    else .error .insufficientOutputAmount

/-- `swapAToB(amountAIn, amountBOutMin, to)`. -/
def swapAToB (caller : Addr) (amountAIn amountBOutMin : Nat) (recipient : Addr)
    (s : PoolState) : Except Err (Nat × PoolState) :=
  withGuard (fun t => swapAToBCore caller amountAIn amountBOutMin recipient (update t)) s

/-- Body of `swapBToA` after the reentrancy check and the initial `_update()`. -/
def swapBToACore (caller : Addr) (amountBIn amountAOutMin : Nat) (recipient : Addr)
    (s1 : PoolState) : Except Err (Nat × PoolState) :=
  match getAmountOutCalc amountBIn s1.reserveB s1.reserveA with
  | .error e => .error e
  | .ok amountAOut =>
    if amountAOutMin ≤ amountAOut then
      match transferB caller POOL amountBIn s1 with
      | .error e => .error e
      | .ok s2 =>
        match transferA POOL recipient amountAOut s2 with
        | .error e => .error e
        | .ok s3 => .ok (amountAOut, update s3)
    else .error .insufficientOutputAmount

/-- `swapBToA(amountBIn, amountAOutMin, to)`. -/
def swapBToA (caller : Addr) (amountBIn amountAOutMin : Nat) (recipient : Addr)
    (s : PoolState) : Except Err (Nat × PoolState) :=
  withGuard (fun t => swapBToACore caller amountBIn amountAOutMin recipient (update t)) s

end SimplePool

namespace PoolFactory

open SimplePool (Addr)

/-- Revert reasons of the factory contract. -/
inductive RegErr where
  /-- `require(tokenA != tokenB, "Identical tokens")` -/
  | identicalTokens
  /-- `require(tokenA != address(0) && tokenB != address(0), "Zero address")` -/
  | zeroAddress
  /-- `require(pools[token0][token1] == address(0), "Pool exists")` -/
  | poolExists
  deriving DecidableEq

/-- State of the `PoolFactory` contract.  `pools x y = 0` means "no pool
recorded for that ordered key".  `nextPool` models the freshness of EVM
contract creation: each `new SimplePoolWithLP(...)` yields a previously
unused, nonzero address, modelled as `nextPool + 1`. -/
structure Registry where
  pools : Addr → Addr → Addr
  allPools : List Addr
  nextPool : Addr

/-- The smaller element of the canonical ordering
`tokenA < tokenB ? (tokenA, tokenB) : (tokenB, tokenA)`. -/
def canon0 (tA tB : Addr) : Addr := if tA < tB then tA else tB

/-- The larger element of the canonical ordering. -/
def canon1 (tA tB : Addr) : Addr := if tA < tB then tB else tA

/-- `createPool(tokenA, tokenB)` of the factory contract. -/
def createPool (tA tB : Addr) (r : Registry) : Except RegErr (Addr × Registry) :=
  if tA = tB then .error .identicalTokens
  else if tA = 0 ∨ tB = 0 then .error .zeroAddress
  else if r.pools (canon0 tA tB) (canon1 tA tB) ≠ 0 then .error .poolExists
  else
    .ok (r.nextPool + 1,
      { pools := fun x y =>
          if (x = canon0 tA tB ∧ y = canon1 tA tB) ∨ (x = canon1 tA tB ∧ y = canon0 tA tB)
          then r.nextPool + 1 else r.pools x y,
        allPools := r.allPools ++ [r.nextPool + 1],
        nextPool := r.nextPool + 1 })

/-- `getPool(tokenA, tokenB)` of the factory contract; `0` plays the role
of "none". -/
def getPool (tA tB : Addr) (r : Registry) : Addr :=
  r.pools (canon0 tA tB) (canon1 tA tB)

/-- The empty registry, as deployed. -/
def reg0 : Registry := { pools := fun _ _ => 0, allPools := [], nextPool := 0 }

/-- The registry after `createPool(1, 2)` on the empty registry. -/
def reg1 : Registry :=
  match createPool 1 2 reg0 with
  | .ok (_, r) => r
  | .error _ => reg0

/-- The pool address returned by `createPool(1, 2)` on the empty registry. -/
def pool1 : Addr :=
  match createPool 1 2 reg0 with
  | .ok (p, _) => p
  | .error _ => 0

end PoolFactory

namespace SimplePool

/-- A concrete pool state for witnesses: the pool (address 0) holds
`pa` of token A and `pb` of token B, the caller (address 1) holds `ca`/`cb`
of the two tokens and `sh` LP shares, total share supply is `T`, the cached
reserves are deliberately stale (0), and the guard is not entered. -/
def mkState (pa pb ca cb sh T : Nat) : PoolState :=
  { reserveA := 0
    reserveB := 0
    balA := fun a => if a = POOL then pa else if a = 1 then ca else 0
    balB := fun a => if a = POOL then pb else if a = 1 then cb else 0
    shares := fun a => if a = 1 then sh else 0
    totalShares := T
    entered := false }

/-- A pool state whose reentrancy guard is currently held (mid-operation). -/
def lockedSt : PoolState := { mkState 1 1 1 1 0 0 with entered := true }

/-- Concrete swap for the C7 witness: pool holds (100, 200), caller 1 is
funded, `swapAToB(10, 0, 2)`. -/
def c7Run : Except Err (Nat × PoolState) := swapAToB 1 10 0 2 (mkState 100 200 1000 0 0 0)

/-- The output amount of `c7Run`. -/
def c7Out : Nat :=
  match c7Run with
  | .ok (o, _) => o
  | .error _ => 0

/-- The post-state of `c7Run`. -/
def c7End : PoolState :=
  match c7Run with
  | .ok (_, t) => t
  | .error _ => mkState 100 200 1000 0 0 0

/-- Concrete removal for the C5 witness: pool holds (100, 100), caller 1
owns all 10 shares, `removeLiquidity(10, 0, 0, 2)`. -/
def c5Run : Except Err ((Nat × Nat) × PoolState) :=
  removeLiquidity 1 10 0 0 2 (mkState 100 100 0 0 10 10)

/-- The paid amounts of `c5Run`. -/
def c5Amounts : Nat × Nat :=
  match c5Run with
  | .ok (p, _) => p
  | .error _ => (0, 0)

/-- The post-state of `c5Run`. -/
def c5End : PoolState :=
  match c5Run with
  | .ok (_, t) => t
  | .error _ => mkState 100 100 0 0 10 10

end SimplePool

namespace SimplePool

/-! ### Helper lemmas -/

theorem withGuard_ok_elim {α : Type} {body : PoolState → Except Err (α × PoolState)}
    {s : PoolState} {a : α} {s' : PoolState}
    (h : withGuard body s = .ok (a, s')) :
    s.entered = false ∧
      ∃ t, body { s with entered := true } = .ok (a, t) ∧ s' = { t with entered := false } := by
  unfold withGuard at h
  split at h
  · simp at h
  · rename_i hent
    refine ⟨by simpa using hent, ?_⟩
    cases hb : body { s with entered := true } with
    | error e => rw [hb] at h; simp at h
    | ok p =>
      obtain ⟨a', t⟩ := p
      rw [hb] at h
      simp only [Except.ok.injEq, Prod.mk.injEq] at h
      exact ⟨t, by rw [h.1], h.2.symm⟩

theorem withGuard_entered {α : Type} {body : PoolState → Except Err (α × PoolState)}
    {s : PoolState} (h : s.entered = true) :
    withGuard body s = .error .reentrancy := by
  unfold withGuard
  rw [h]
  simp

theorem withGuard_error_intro {α : Type} {body : PoolState → Except Err (α × PoolState)}
    {s : PoolState} {e : Err} (hent : s.entered = false)
    (h : body { s with entered := true } = .error e) :
    withGuard body s = .error e := by
  unfold withGuard
  rw [hent, h]
  simp

theorem getAmountOutCalc_pos {a rIn rOut : Nat} (ha : 0 < a) (hi : 0 < rIn)
    (ho : 0 < rOut) :
    getAmountOutCalc a rIn rOut = .ok (specAmountOut a rIn rOut) := by
  unfold getAmountOutCalc
  rw [if_pos ha, if_pos ⟨hi, ho⟩]
  rfl

theorem getAmountOutCalc_ok_elim {a rIn rOut out : Nat}
    (h : getAmountOutCalc a rIn rOut = .ok out) :
    0 < a ∧ 0 < rIn ∧ 0 < rOut ∧ out = specAmountOut a rIn rOut := by
  unfold getAmountOutCalc at h
  split at h
  · split at h
    · rename_i ha hc
      injection h with h'
      exact ⟨ha, hc.1, hc.2, h'.symm⟩
    · simp at h
  · simp at h

theorem update_reserveA (s : PoolState) : (update s).reserveA = s.balA POOL := rfl

theorem update_reserveB (s : PoolState) : (update s).reserveB = s.balB POOL := rfl

theorem update_synced (s : PoolState) :
    (update s).reserveA = (update s).balA POOL ∧
      (update s).reserveB = (update s).balB POOL := ⟨rfl, rfl⟩

theorem swapAToBCore_ok_elim {caller : Addr} {aIn bMin : Nat} {recipient : Addr}
    {s1 : PoolState} {out : Nat} {t : PoolState}
    (h : swapAToBCore caller aIn bMin recipient s1 = .ok (out, t)) :
    getAmountOutCalc aIn s1.reserveA s1.reserveB = .ok out ∧
      t.reserveA = t.balA POOL ∧ t.reserveB = t.balB POOL := by
  unfold swapAToBCore at h
  split at h
  · simp at h
  · rename_i v hg
    split at h
    · split at h
      · simp at h
      · rename_i s2 h1
        split at h
        · simp at h
        · rename_i s3 h2
          simp only [Except.ok.injEq, Prod.mk.injEq] at h
          obtain ⟨hv, ht⟩ := h
          subst hv
          rw [← ht]
          exact ⟨hg, rfl, rfl⟩
    · simp at h

theorem swapBToACore_ok_elim {caller : Addr} {bIn aMin : Nat} {recipient : Addr}
    {s1 : PoolState} {out : Nat} {t : PoolState}
    (h : swapBToACore caller bIn aMin recipient s1 = .ok (out, t)) :
    getAmountOutCalc bIn s1.reserveB s1.reserveA = .ok out ∧
      t.reserveA = t.balA POOL ∧ t.reserveB = t.balB POOL := by
  unfold swapBToACore at h
  split at h
  · simp at h
  · rename_i v hg
    split at h
    · split at h
      · simp at h
      · rename_i s2 h1
        split at h
        · simp at h
        · rename_i s3 h2
          simp only [Except.ok.injEq, Prod.mk.injEq] at h
          obtain ⟨hv, ht⟩ := h
          subst hv
          rw [← ht]
          exact ⟨hg, rfl, rfl⟩
    · simp at h

/-- Arithmetic core of the invariant-growth property: the fee-adjusted
output, multiplied by the grown input-side reserve, stays strictly below
`amountIn × reserveOut`, because the denominator exceeds
`(reserveIn + amountIn) × 9970` by the fee margin `reserveIn × 30`. -/
theorem amountOut_mul_lt {a rIn rOut : Nat} (ha : 0 < a) (hi : 0 < rIn)
    (ho : 0 < rOut) :
    (rIn + a) * specAmountOut a rIn rOut < a * rOut := by
  unfold specAmountOut
  set D := rIn * 10000 + a * (10000 - 30) with hD
  set q := a * (10000 - 30) * rOut / D with hq
  have hDpos : 0 < D := by
    have : 0 < rIn * 10000 := by positivity
    omega
  have h1 : q * D ≤ a * (10000 - 30) * rOut := Nat.div_mul_le_self _ _
  have h2 : (rIn + a) * q * D < a * rOut * D := by
    calc (rIn + a) * q * D = (rIn + a) * (q * D) := by ring
      _ ≤ (rIn + a) * (a * (10000 - 30) * rOut) := Nat.mul_le_mul_left _ h1
      _ < a * rOut * D := by
          rw [hD]
          nlinarith [mul_pos (mul_pos ha hi) ho]
  exact lt_of_mul_lt_mul_right h2 (Nat.zero_le D)

/-- The swap output is strictly smaller than the output-side reserve. -/
theorem amountOut_lt_reserveOut {a rIn rOut : Nat} (ha : 0 < a) (hi : 0 < rIn)
    (ho : 0 < rOut) : specAmountOut a rIn rOut < rOut := by
  have h := amountOut_mul_lt ha hi ho
  have h2 : (rIn + a) * specAmountOut a rIn rOut < (rIn + a) * rOut := by
    calc (rIn + a) * specAmountOut a rIn rOut < a * rOut := h
      _ ≤ (rIn + a) * rOut := Nat.mul_le_mul_right _ (by omega)
  exact lt_of_mul_lt_mul_left h2 (Nat.zero_le _)

end SimplePool

namespace SimplePool

/-! ### Claim theorems -/

/-- C1.  For every `amountIn > 0` and reserves `reserveIn > 0`,
`reserveOut > 0`, the swap output computed by `_getAmountOut` — and hence
by the read-only `getAmountOut` view and by `swapAToB` / `swapBToA`, which
evaluate it on the resynchronised reserves (the pool's true token
balances) — equals exactly
`floor(amountIn × (10000 − 30) × reserveOut / (reserveIn × 10000 + amountIn × (10000 − 30)))`:
the 30-bps fee is deducted from the input before the constant-product
formula is applied. -/
theorem c1_swap_output_fee_formula (aIn rIn rOut : Nat) (hIn : 0 < aIn)
    (hRin : 0 < rIn) (hRout : 0 < rOut) :
    getAmountOutCalc aIn rIn rOut = .ok (specAmountOut aIn rIn rOut)
    ∧ (∀ s : PoolState, s.reserveA = rIn → s.reserveB = rOut →
        getAmountOut aIn true s = .ok (specAmountOut aIn rIn rOut))
    ∧ (∀ s : PoolState, s.reserveB = rIn → s.reserveA = rOut →
        getAmountOut aIn false s = .ok (specAmountOut aIn rIn rOut))
    ∧ (∀ (s : PoolState) (caller recipient : Addr) (bMin out : Nat) (s' : PoolState),
        s.balA POOL = rIn → s.balB POOL = rOut →
        swapAToB caller aIn bMin recipient s = .ok (out, s') →
        out = specAmountOut aIn rIn rOut)
    ∧ (∀ (s : PoolState) (caller recipient : Addr) (aMin out : Nat) (s' : PoolState),
        s.balB POOL = rIn → s.balA POOL = rOut →
        swapBToA caller aIn aMin recipient s = .ok (out, s') →
        out = specAmountOut aIn rIn rOut) := by
  refine ⟨getAmountOutCalc_pos hIn hRin hRout, ?_, ?_, ?_, ?_⟩
  · intro s h1 h2
    unfold getAmountOut
    rw [if_pos rfl, h1, h2]
    exact getAmountOutCalc_pos hIn hRin hRout
  · intro s h1 h2
    unfold getAmountOut
    rw [if_neg (by simp), h1, h2]
    exact getAmountOutCalc_pos hIn hRin hRout
  · intro s caller recipient bMin out s' h1 h2 h
    obtain ⟨-, t, hb, -⟩ := withGuard_ok_elim h
    obtain ⟨hg, -, -⟩ := swapAToBCore_ok_elim hb
    have hres : (update { s with entered := true }).reserveA = rIn := by
      rw [update_reserveA]; exact h1
    have hres2 : (update { s with entered := true }).reserveB = rOut := by
      rw [update_reserveB]; exact h2
    rw [hres, hres2, getAmountOutCalc_pos hIn hRin hRout] at hg
    injection hg with hg
    exact hg.symm
  · intro s caller recipient aMin out s' h1 h2 h
    obtain ⟨-, t, hb, -⟩ := withGuard_ok_elim h
    obtain ⟨hg, -, -⟩ := swapBToACore_ok_elim hb
    have hres : (update { s with entered := true }).reserveB = rIn := by
      rw [update_reserveB]; exact h1
    have hres2 : (update { s with entered := true }).reserveA = rOut := by
      rw [update_reserveA]; exact h2
    rw [hres, hres2, getAmountOutCalc_pos hIn hRin hRout] at hg
    injection hg with hg
    exact hg.symm

/-- Witness for C1 at `amountIn = 10`, `reserveIn = 100`, `reserveOut = 200`:
the computed output is `floor(10·9970·200 / (100·10000 + 10·9970)) = 18`. -/
theorem c1_swap_output_fee_formula_witness :
    getAmountOutCalc 10 100 200 = .ok (specAmountOut 10 100 200)
    ∧ specAmountOut 10 100 200 = 18 :=
  ⟨(c1_swap_output_fee_formula 10 100 200 (by decide) (by decide) (by decide)).1,
   by decide⟩

/-- C2.  For every swap accepted by `_getAmountOut` (which enforces
`amountIn > 0` and positive reserves), the post-trade reserves
`reserveIn + amountIn` and `reserveOut − amountOut` satisfy the strict
constant-product growth
`reserveIn × reserveOut < (reserveIn + amountIn) × (reserveOut − amountOut)`
(so in particular the product never decreases), and `amountOut < reserveOut`
so the subtraction does not truncate. -/
theorem c2_product_strictly_grows (a rIn rOut out : Nat)
    (h : getAmountOutCalc a rIn rOut = .ok out) :
    out < rOut ∧ rIn * rOut < (rIn + a) * (rOut - out) := by
  obtain ⟨ha, hi, ho, hout⟩ := getAmountOutCalc_ok_elim h
  subst hout
  have hlt := amountOut_lt_reserveOut ha hi ho
  refine ⟨hlt, ?_⟩
  have hmul := amountOut_mul_lt ha hi ho
  have hle : specAmountOut a rIn rOut ≤ rOut := le_of_lt hlt
  zify [hle]
  nlinarith [hmul]

/-- Witness for C2: the concrete swap of C1's witness strictly grows the
product: `100·200 < 110·(200 − 18)`. -/
theorem c2_product_strictly_grows_witness :
    specAmountOut 10 100 200 < 200
    ∧ 100 * 200 < (100 + 10) * (200 - specAmountOut 10 100 200) :=
  c2_product_strictly_grows 10 100 200 (specAmountOut 10 100 200)
    (getAmountOutCalc_pos (by decide) (by decide) (by decide))

/-- One integer Newton step from any positive `x` stays at or above
`⌊√y⌋` (integer AM–GM). -/
theorem sqrt_le_newton {y x : Nat} (hx : 0 < x) :
    Nat.sqrt y ≤ (y / x + x) / 2 := by
  rw [Nat.le_div_iff_mul_le (by norm_num : (0:ℕ) < 2)]
  by_contra hcon
  push_neg at hcon
  have h1 : Nat.sqrt y * Nat.sqrt y ≤ y := Nat.sqrt_le y
  have h2 : y < x * (y / x + 1) := by
    have hmod : y % x < x := Nat.mod_lt y hx
    have hdm : x * (y / x) + y % x = y := Nat.div_add_mod y x
    have hexp : x * (y / x + 1) = x * (y / x) + x := by ring
    omega
  have h1' : (Nat.sqrt y : ℤ) * Nat.sqrt y ≤ y := by exact_mod_cast h1
  have h2' : (y : ℤ) < x * ((y / x : ℕ) + 1) := by exact_mod_cast h2
  have hc : y / x + x + 1 ≤ 2 * Nat.sqrt y := by omega
  have hc' : ((y / x : ℕ) : ℤ) + x + 1 ≤ 2 * Nat.sqrt y := by exact_mod_cast hc
  nlinarith [sq_nonneg ((x : ℤ) - ((y / x : ℕ) : ℤ) - 1),
    mul_le_mul hc' hc' (by positivity) (by positivity)]

/-- If a positive `x` does not shrink under a Newton step, then `x ≤ ⌊√y⌋`. -/
theorem newton_exit {y x : Nat} (h : x ≤ (y / x + x) / 2) :
    x * x ≤ y := by
  rw [Nat.le_div_iff_mul_le (by norm_num : (0:ℕ) < 2)] at h
  have h1 : x ≤ y / x := by omega
  calc x * x ≤ y / x * x := Nat.mul_le_mul_right x h1
    _ ≤ y := Nat.div_mul_le_self y x

/-- The Babylonian loop of `_sqrt` computes `⌊√y⌋` whenever it starts at
or above it. -/
theorem sqrtAux_eq_sqrt (y : Nat) (hy : 3 < y) :
    ∀ z x, 0 < x → Nat.sqrt y ≤ x → Nat.sqrt y ≤ z → (z ≤ x → z ≤ Nat.sqrt y) →
      sqrtAux y x z = Nat.sqrt y := by
  intro z
  induction z using Nat.strong_induction_on with
  | _ z ih =>
    intro x hx hsx hsz hexit
    unfold sqrtAux
    split
    · rename_i hlt
      have hs2 : 2 ≤ Nat.sqrt y := Nat.le_sqrt.mpr (by omega)
      have hnewge : Nat.sqrt y ≤ (y / x + x) / 2 := sqrt_le_newton hx
      exact ih x hlt ((y / x + x) / 2) (by omega) hnewge hsx
        (fun hex => Nat.le_sqrt.mpr (newton_exit hex))
    · rename_i hnlt
      exact le_antisymm (hexit (by omega)) hsz

/-- `_sqrt` agrees with the mathematical integer square root on every input. -/
theorem sqrtSol_eq_sqrt (y : Nat) : sqrtSol y = Nat.sqrt y := by
  unfold sqrtSol
  split
  · rename_i hy
    have hs2 : 2 ≤ Nat.sqrt y := Nat.le_sqrt.mpr (by omega)
    have hsle : Nat.sqrt y ≤ y / 2 + 1 := by
      have h1 : Nat.sqrt y * 2 ≤ Nat.sqrt y * Nat.sqrt y :=
        Nat.mul_le_mul_left _ hs2
      have h2 : Nat.sqrt y * Nat.sqrt y ≤ y := Nat.sqrt_le y
      have h3 : Nat.sqrt y ≤ y / 2 :=
        (Nat.le_div_iff_mul_le (by norm_num : (0:ℕ) < 2)).mpr (by omega)
      omega
    exact sqrtAux_eq_sqrt y hy y (y / 2 + 1) (by omega) hsle (Nat.sqrt_le_self y)
      (fun hex => absurd hex (by omega))
  · rename_i hy
    split
    · rename_i hy0
      have hub : Nat.sqrt y ≤ 1 :=
        Nat.lt_succ_iff.mp (Nat.sqrt_lt.mpr (by omega))
      have hlb : 1 ≤ Nat.sqrt y := Nat.le_sqrt.mpr (by omega)
      omega
    · rename_i hy0
      have h0 : y = 0 := by omega
      subst h0
      exact (Nat.le_antisymm (Nat.sqrt_le_self 0) (Nat.zero_le _)).symm

/-- C10.  `_sqrt` terminates on every input (its Lean transcription
`sqrtAux` is accepted with the loop variable `z` as a strictly decreasing
well-founded measure, mirroring `while (x < z)` with the next `z` being the
strictly smaller `x`) and returns the integer floor of the square root:
`_sqrt y` is the greatest `z` with `z × z ≤ y`, and `_sqrt 0 = 0`. -/
theorem c10_sqrt_terminates_and_is_floor (y : Nat) :
    sqrtSol y * sqrtSol y ≤ y ∧ (∀ z : Nat, z * z ≤ y → z ≤ sqrtSol y)
    ∧ sqrtSol 0 = 0 := by
  rw [sqrtSol_eq_sqrt]
  refine ⟨Nat.sqrt_le y, fun z hz => Nat.le_sqrt.mpr hz, ?_⟩
  rw [sqrtSol_eq_sqrt]
  exact Nat.le_antisymm (Nat.sqrt_le_self 0) (Nat.zero_le _)

/-- Witness for C10 at `y = 10`: `_sqrt 10` squared is at most 10, and any
`z` with `z² ≤ 10` (such as `z = 3`) is at most `_sqrt 10`. -/
theorem c10_sqrt_terminates_and_is_floor_witness :
    sqrtSol 10 * sqrtSol 10 ≤ 10 ∧ 3 ≤ sqrtSol 10 :=
  ⟨(c10_sqrt_terminates_and_is_floor 10).1,
   (c10_sqrt_terminates_and_is_floor 10).2.1 3 (by decide)⟩

end SimplePool

namespace SimplePool

/-! ### Success/error characterisations of the liquidity operations -/

theorem divE_pos {n d : Nat} (hd : d ≠ 0) : divE n d = .ok (n / d) := by
  unfold divE
  rw [if_neg hd]

theorem divE_zero (n : Nat) : divE n 0 = .error .divisionByZero := by
  unfold divE
  rw [if_pos rfl]

theorem divE_ok_elim {n d v : Nat} (h : divE n d = .ok v) : d ≠ 0 ∧ v = n / d := by
  unfold divE at h
  split at h
  · simp at h
  · rename_i hd
    injection h with h'
    exact ⟨hd, h'.symm⟩

theorem quote_pos {amountA rA rB : Nat} (ha : 0 < amountA) (hA : 0 < rA)
    (hB : 0 < rB) : quote amountA rA rB = .ok (amountA * rB / rA) := by
  unfold quote
  rw [if_pos ha, if_pos ⟨hA, hB⟩]

theorem transferA_ok_elim {src dst : Addr} {amt : Nat} {s t : PoolState}
    (h : transferA src dst amt s = .ok t) :
    amt ≤ s.balA src ∧ t = { s with balA := updBal s.balA src dst amt } := by
  unfold transferA at h
  split at h
  · rename_i hle
    injection h with h'
    exact ⟨hle, h'.symm⟩
  · simp at h

theorem transferB_ok_elim {src dst : Addr} {amt : Nat} {s t : PoolState}
    (h : transferB src dst amt s = .ok t) :
    amt ≤ s.balB src ∧ t = { s with balB := updBal s.balB src dst amt } := by
  unfold transferB at h
  split at h
  · rename_i hle
    injection h with h'
    exact ⟨hle, h'.symm⟩
  · simp at h

theorem burnShares_ok_elim {src : Addr} {amt : Nat} {s t : PoolState}
    (h : burnShares src amt s = .ok t) :
    amt ≤ s.shares src
    ∧ t = { s with shares := fun a => if a = src then s.shares a - amt else s.shares a,
                   totalShares := s.totalShares - amt } := by
  unfold burnShares at h
  split at h
  · rename_i hle
    injection h with h'
    exact ⟨hle, h'.symm⟩
  · simp at h

theorem updBal_dst {b : Addr → Nat} {src dst : Addr} {amt : Nat} (h : dst ≠ src) :
    updBal b src dst amt dst = b dst + amt := by
  unfold updBal
  simp [h]

theorem updBal_src {b : Addr → Nat} {src dst : Addr} {amt : Nat} (h : src ≠ dst) :
    updBal b src dst amt src = b src - amt := by
  unfold updBal
  simp [h]

theorem updBal_other {b : Addr → Nat} {src dst a : Addr} {amt : Nat}
    (h1 : a ≠ src) (h2 : a ≠ dst) : updBal b src dst amt a = b a := by
  unfold updBal
  simp [h1, h2]

theorem removeLiquidityCore_eq {caller : Addr} {liq aMin bMin : Nat}
    {recipient : Addr} {s1 : PoolState} (hT : s1.totalShares ≠ 0) :
    removeLiquidityCore caller liq aMin bMin recipient s1 =
      if 0 < liq * s1.reserveA / s1.totalShares ∧ 0 < liq * s1.reserveB / s1.totalShares then
        if aMin ≤ liq * s1.reserveA / s1.totalShares ∧ bMin ≤ liq * s1.reserveB / s1.totalShares then
          match burnShares caller liq s1 with
          | .error e => .error e
          | .ok s2 =>
            match transferA POOL recipient (liq * s1.reserveA / s1.totalShares) s2 with
            | .error e => .error e
            | .ok s3 =>
              match transferB POOL recipient (liq * s1.reserveB / s1.totalShares) s3 with
              | .error e => .error e
              | .ok s4 =>
                .ok ((liq * s1.reserveA / s1.totalShares, liq * s1.reserveB / s1.totalShares),
                  update s4)
        else .error .slippageExceeded
      else .error .insufficientBurnAmount := by
  unfold removeLiquidityCore
  rw [divE_pos hT, divE_pos hT]

theorem removeLiquidityCore_div_zero {caller : Addr} {liq aMin bMin : Nat}
    {recipient : Addr} {s1 : PoolState} (hT : s1.totalShares = 0) :
    removeLiquidityCore caller liq aMin bMin recipient s1 = .error .divisionByZero := by
  unfold removeLiquidityCore
  rw [hT, divE_zero]

theorem addLiquidityStep_first {aD bD aMin bMin : Nat} {s1 : PoolState}
    (h0 : s1.reserveA = 0) (h0' : s1.reserveB = 0) :
    addLiquidityStep aD bD aMin bMin s1 =
      if MINIMUM_LIQUIDITY < sqrtSol (aD * bD) then
        .ok (sqrtSol (aD * bD) - MINIMUM_LIQUIDITY, aD, bD)
      else .error .insufficientInitialLiquidity := by
  unfold addLiquidityStep
  rw [if_pos ⟨h0, h0'⟩]

theorem addLiquidityStep_funded {aD bD aMin bMin : Nat} {s1 : PoolState}
    (hA : 0 < s1.reserveA) (hB : 0 < s1.reserveB) (haD : 0 < aD) (hbD : 0 < bD) :
    addLiquidityStep aD bD aMin bMin s1 =
      if aD * s1.reserveB / s1.reserveA ≤ bD then
        if bMin ≤ aD * s1.reserveB / s1.reserveA then
          .ok (minNat (aD * s1.totalShares / s1.reserveA)
                 (aD * s1.reserveB / s1.reserveA * s1.totalShares / s1.reserveB),
               aD, aD * s1.reserveB / s1.reserveA)
        else .error .insufficientBAmount
      else
        if bD * s1.reserveA / s1.reserveB ≤ aD ∧ aMin ≤ bD * s1.reserveA / s1.reserveB then
          .ok (minNat (bD * s1.reserveA / s1.reserveB * s1.totalShares / s1.reserveA)
                 (bD * s1.totalShares / s1.reserveB),
               bD * s1.reserveA / s1.reserveB, bD)
        else .error .insufficientAAmount := by
  unfold addLiquidityStep
  rw [if_neg (by omega : ¬ (s1.reserveA = 0 ∧ s1.reserveB = 0))]
  rw [quote_pos haD hA hB, quote_pos hbD hB hA]

theorem addLiquidityCore_step_error {caller : Addr} {aD bD aMin bMin : Nat}
    {s1 : PoolState} {e : Err}
    (h : addLiquidityStep aD bD aMin bMin s1 = .error e) :
    addLiquidityCore caller aD bD aMin bMin s1 = .error e := by
  unfold addLiquidityCore
  rw [h]

theorem addLiquidityCore_ok_elim {caller : Addr} {aD bD aMin bMin : Nat}
    {s1 : PoolState} {liq : Nat} {t : PoolState}
    (h : addLiquidityCore caller aD bD aMin bMin s1 = .ok (liq, t)) :
    0 < liq
    ∧ ∃ amtA amtB s2 s3,
        addLiquidityStep aD bD aMin bMin s1 = .ok (liq, amtA, amtB)
        ∧ transferA caller POOL amtA s1 = .ok s2
        ∧ transferB caller POOL amtB s2 = .ok s3
        ∧ t = mintShares caller liq (update s3) := by
  unfold addLiquidityCore at h
  split at h
  · simp at h
  · rename_i l amtA amtB hstep
    split at h
    · rename_i hpos
      split at h
      · simp at h
      · rename_i s2 h1
        split at h
        · simp at h
        · rename_i s3 h2
          simp only [Except.ok.injEq, Prod.mk.injEq] at h
          obtain ⟨hl, ht⟩ := h
          subst hl
          exact ⟨hpos, amtA, amtB, s2, s3, hstep, h1, h2, ht.symm⟩
    · simp at h

theorem addLiquidityCore_no_mint {caller : Addr} {aD bD aMin bMin : Nat}
    {s1 : PoolState} {amtA amtB : Nat}
    (h : addLiquidityStep aD bD aMin bMin s1 = .ok (0, amtA, amtB)) :
    addLiquidityCore caller aD bD aMin bMin s1 = .error .noLiquidityMinted := by
  unfold addLiquidityCore
  rw [h]
  rfl

theorem removeLiquidityCore_ok_elim {caller : Addr} {liq aMin bMin : Nat}
    {recipient : Addr} {s1 : PoolState} {a b : Nat} {t : PoolState}
    (h : removeLiquidityCore caller liq aMin bMin recipient s1 = .ok ((a, b), t)) :
    s1.totalShares ≠ 0
    ∧ a = liq * s1.reserveA / s1.totalShares
    ∧ b = liq * s1.reserveB / s1.totalShares
    ∧ 0 < a ∧ 0 < b ∧ aMin ≤ a ∧ bMin ≤ b
    ∧ ∃ s2 s3 s4,
        burnShares caller liq s1 = .ok s2
        ∧ transferA POOL recipient a s2 = .ok s3
        ∧ transferB POOL recipient b s3 = .ok s4
        ∧ t = update s4 := by
  unfold removeLiquidityCore at h
  split at h
  · simp at h
  · rename_i va hdivA
    split at h
    · simp at h
    · rename_i vb hdivB
      obtain ⟨hT, hva⟩ := divE_ok_elim hdivA
      obtain ⟨-, hvb⟩ := divE_ok_elim hdivB
      subst hva
      subst hvb
      split at h
      · rename_i hposes
        split at h
        · rename_i hmins
          split at h
          · simp at h
          · rename_i s2 hburn
            split at h
            · simp at h
            · rename_i s3 htA
              split at h
              · simp at h
              · rename_i s4 htB
                simp only [Except.ok.injEq, Prod.mk.injEq] at h
                obtain ⟨⟨hva', hvb'⟩, ht⟩ := h
                subst hva'
                subst hvb'
                exact ⟨hT, rfl, rfl, hposes.1, hposes.2, hmins.1, hmins.2,
                  s2, s3, s4, hburn, htA, htB, ht.symm⟩
        · simp at h
      · simp at h

end SimplePool

namespace SimplePool

/-- C9.  From any state with `totalShares = 0` — including the degenerate
state reachable by direct token transfers, where dust reserves remain while
no shares are outstanding — `removeLiquidity` performs the division by
`totalSupply()` with no preceding `totalSupply() > 0` check and aborts with
the arithmetic division-by-zero panic, not with one of the named liquidity
errors; the error return carries no state, matching the EVM's roll-back of
the whole transaction. -/
theorem c9_remove_liquidity_div_by_zero (s : PoolState) (caller : Addr)
    (sh aMin bMin : Nat) (recipient : Addr)
    (hent : s.entered = false) (hT : s.totalShares = 0) :
    removeLiquidity caller sh aMin bMin recipient s = .error .divisionByZero := by
  unfold removeLiquidity
  exact withGuard_error_intro hent (removeLiquidityCore_div_zero hT)

/-- Witness for C9: a pool with dust reserves `(3, 7)` and zero total
shares; any removal attempt dies on the division. -/
theorem c9_remove_liquidity_div_by_zero_witness :
    removeLiquidity 1 5 0 0 2 (mkState 3 7 0 0 0 0) = .error .divisionByZero :=
  c9_remove_liquidity_div_by_zero (mkState 3 7 0 0 0 0) 1 5 0 0 2 rfl rfl

/-- C5.  For every funded pool (`totalShares > 0`) and every
`shares ≤ totalShares`, `removeLiquidity` pays exactly
`floor(shares × reserveA / totalShares)` and
`floor(shares × reserveB / totalShares)` of the current actual reserves
(the pool's true token balances, re-read by the initial `_update()`), fails
with the insufficient-burn error when either computed amount is zero, with
the slippage error when the amounts are positive but either is below its
caller-supplied minimum, and on success decreases the caller's share
balance by exactly `shares` (and the total supply likewise), crediting the
recipient with both payouts. -/
theorem c5_remove_liquidity_proportional (s : PoolState) (caller recipient : Addr)
    (sh aMin bMin : Nat) (hent : s.entered = false) (hT : 0 < s.totalShares)
    (hsh : sh ≤ s.totalShares) :
    (sh * s.balA POOL / s.totalShares = 0 ∨ sh * s.balB POOL / s.totalShares = 0 →
      removeLiquidity caller sh aMin bMin recipient s = .error .insufficientBurnAmount)
    ∧ (0 < sh * s.balA POOL / s.totalShares → 0 < sh * s.balB POOL / s.totalShares →
       (sh * s.balA POOL / s.totalShares < aMin ∨ sh * s.balB POOL / s.totalShares < bMin) →
      removeLiquidity caller sh aMin bMin recipient s = .error .slippageExceeded)
    ∧ (∀ (a b : Nat) (s' : PoolState),
        removeLiquidity caller sh aMin bMin recipient s = .ok ((a, b), s') →
        a = sh * s.balA POOL / s.totalShares
        ∧ b = sh * s.balB POOL / s.totalShares
        ∧ sh ≤ s.shares caller
        ∧ s'.shares caller = s.shares caller - sh
        ∧ s'.totalShares = s.totalShares - sh
        ∧ (recipient ≠ POOL →
            s'.balA recipient = s.balA recipient + a
            ∧ s'.balB recipient = s.balB recipient + b)) := by
  have hTne : (update { s with entered := true }).totalShares ≠ 0 := by
    show s.totalShares ≠ 0
    omega
  refine ⟨?_, ?_, ?_⟩
  · intro h0
    unfold removeLiquidity
    apply withGuard_error_intro hent
    rw [removeLiquidityCore_eq hTne]
    rw [if_neg]
    show ¬ (0 < sh * s.balA POOL / s.totalShares ∧ 0 < sh * s.balB POOL / s.totalShares)
    rcases h0 with h0 | h0 <;> simp [h0]
  · intro hpa hpb hmins
    unfold removeLiquidity
    apply withGuard_error_intro hent
    rw [removeLiquidityCore_eq hTne]
    rw [if_pos, if_neg]
    · show ¬ (aMin ≤ sh * s.balA POOL / s.totalShares ∧ bMin ≤ sh * s.balB POOL / s.totalShares)
      omega
    · show 0 < sh * s.balA POOL / s.totalShares ∧ 0 < sh * s.balB POOL / s.totalShares
      exact ⟨hpa, hpb⟩
  · intro a b s' hok
    unfold removeLiquidity at hok
    obtain ⟨-, t, hb, hs'⟩ := withGuard_ok_elim hok
    obtain ⟨hT0, ha, hbq, hpa, hpb, hma, hmb, s2, s3, s4, hburn, htA, htB, ht⟩ :=
      removeLiquidityCore_ok_elim hb
    obtain ⟨hshle, hs2⟩ := burnShares_ok_elim hburn
    obtain ⟨hbal3, hs3⟩ := transferA_ok_elim htA
    obtain ⟨hbal4, hs4⟩ := transferB_ok_elim htB
    subst hs2
    subst hs3
    subst hs4
    subst ht
    subst hs'
    refine ⟨ha, hbq, hshle, ?_, ?_, ?_⟩
    · show (if caller = caller then s.shares caller - sh else s.shares caller)
        = s.shares caller - sh
      simp
    · rfl
    · intro hne
      constructor
      · show updBal s.balA POOL recipient a recipient = s.balA recipient + a
        exact updBal_dst hne
      · show updBal s.balB POOL recipient b recipient = s.balB recipient + b
        exact updBal_dst hne

/-- Witness for C5: pool holds `(100, 100)`, caller 1 owns all 10 shares;
`removeLiquidity(10, 0, 0, 2)` pays `(100, 100)` and zeroes the caller's
shares. -/
theorem c5_remove_liquidity_proportional_witness :
    c5Amounts.1 = 100 ∧ c5End.shares 1 = 0 ∧ c5End.totalShares = 0 := by
  have h := (c5_remove_liquidity_proportional (mkState 100 100 0 0 10 10) 1 2 10 0 0
    rfl (by decide) (by decide)).2.2 c5Amounts.1 c5Amounts.2 c5End (by rfl)
  exact ⟨h.1.trans (by decide), (h.2.2.2.1).trans (by decide),
    (h.2.2.2.2.1).trans (by decide)⟩

end SimplePool

namespace SimplePool

/-- Counterexample to C3 as stated: a state with `totalShares = 0` but
nonzero dust reserves (tokens sent directly to the pool, so both true
balances are 1).  The desired amounts have geometric mean
`2000000 > 1000`, so the claim predicts a successful first-deposit mint of
`sqrt(aD·bD) − 1000` shares; the code instead selects the proportional
branch (its test is `reserveA == 0 && reserveB == 0`, not
`totalShares == 0`), computes `min(aOpt·0/rA, bOpt·0/rB) = 0` and fails
with the no-liquidity-minted error. -/
theorem c3_total_shares_zero_counterexample :
    (mkState 1 1 2000000 2000000 0 0).totalShares = 0
    ∧ MINIMUM_LIQUIDITY < sqrtSol (2000000 * 2000000)
    ∧ addLiquidity 1 2000000 2000000 0 0 (mkState 1 1 2000000 2000000 0 0)
        = .error .noLiquidityMinted := by
  refine ⟨rfl, ?_, rfl⟩
  rw [sqrtSol_eq_sqrt]
  exact Nat.le_sqrt.mpr (by decide)

/-- C3 (amended).  The first-deposit branch is selected by the source's
test `reserveA == 0 && reserveB == 0` on the freshly resynchronised
reserves (both true balances zero), not by `totalShares == 0`.  Under that
condition `addLiquidity` fails with `InsufficientInitialLiquidity` whenever
`floor(sqrt(aD × bD)) ≤ 1000`, and on success mints exactly
`floor(sqrt(aD × bD)) − 1000` shares to the caller — the 1000 locked shares
are never minted to anyone, as the total supply grows only by the minted
amount. -/
theorem c3_first_deposit_amended (s : PoolState) (caller : Addr)
    (aD bD aMin bMin : Nat) (hent : s.entered = false)
    (hA : s.balA POOL = 0) (hB : s.balB POOL = 0) :
    (sqrtSol (aD * bD) ≤ MINIMUM_LIQUIDITY →
      addLiquidity caller aD bD aMin bMin s = .error .insufficientInitialLiquidity)
    ∧ (∀ (liq : Nat) (s' : PoolState),
        addLiquidity caller aD bD aMin bMin s = .ok (liq, s') →
        MINIMUM_LIQUIDITY < sqrtSol (aD * bD)
        ∧ liq = sqrtSol (aD * bD) - MINIMUM_LIQUIDITY
        ∧ s'.totalShares = s.totalShares + liq
        ∧ s'.shares caller = s.shares caller + liq) := by
  have h1 : (update { s with entered := true }).reserveA = 0 := hA
  have h2 : (update { s with entered := true }).reserveB = 0 := hB
  constructor
  · intro hle
    unfold addLiquidity
    apply withGuard_error_intro hent
    apply addLiquidityCore_step_error
    rw [addLiquidityStep_first h1 h2]
    rw [if_neg (by omega)]
  · intro liq s' hok
    unfold addLiquidity at hok
    obtain ⟨-, t, hb, hs'⟩ := withGuard_ok_elim hok
    obtain ⟨hpos, amtA, amtB, s2, s3, hstep, htA, htB, ht⟩ := addLiquidityCore_ok_elim hb
    rw [addLiquidityStep_first h1 h2] at hstep
    split at hstep
    · rename_i hgt
      simp only [Except.ok.injEq, Prod.mk.injEq] at hstep
      obtain ⟨hliq, -, -⟩ := hstep
      obtain ⟨-, hs2⟩ := transferA_ok_elim htA
      obtain ⟨-, hs3⟩ := transferB_ok_elim htB
      subst hs2
      subst hs3
      subst ht
      subst hs'
      refine ⟨hgt, hliq.symm, rfl, ?_⟩
      show (if caller = caller then s.shares caller + liq else s.shares caller)
        = s.shares caller + liq
      simp
    · simp at hstep

/-- Witness for the amended C3: a genuinely empty pool (both balances 0);
`addLiquidity(1, 1, 0, 0)` has `sqrt(1) = 1 ≤ 1000` and fails with the
insufficient-initial-liquidity error. -/
theorem c3_first_deposit_amended_witness :
    addLiquidity 1 1 1 0 0 (mkState 0 0 5 5 0 0)
      = .error .insufficientInitialLiquidity :=
  (c3_first_deposit_amended (mkState 0 0 5 5 0 0) 1 1 1 0 0 rfl rfl rfl).1 (by decide)

end SimplePool

namespace SimplePool

/-- Counterexample to C4 as stated: a funded pool (`totalShares = 1`, both
reserves 1) with `amountADesired = 0`, `amountBDesired = 1` and zero
minimums.  The claim's formulas give `amountBOptimal = 0 ≤ 1` and a share
mint of `min(0, 0) = 0`, so it predicts failure with the
no-liquidity-minted error; the code instead aborts earlier, inside
`_quote`, with its `"Insufficient amount"` require (a different named
failure), because `_quote` demands a positive input amount. -/
theorem c4_zero_desired_counterexample :
    0 < (mkState 1 1 100 100 0 1).totalShares
    ∧ 0 < (mkState 1 1 100 100 0 1).balA POOL
    ∧ 0 < (mkState 1 1 100 100 0 1).balB POOL
    ∧ addLiquidity 1 0 1 0 0 (mkState 1 1 100 100 0 1) = .error .insufficientQuoteAmount
    ∧ Err.insufficientQuoteAmount ≠ Err.noLiquidityMinted :=
  ⟨by decide, by decide, by decide, rfl, by decide⟩

/-- C4 (amended).  For every funded pool (`totalShares > 0`, both true
balances positive) and inputs with `amountADesired > 0` and
`amountBDesired > 0` (with a zero desired amount the call instead dies in
`_quote` with its insufficient-amount require): `addLiquidity` computes
`amountBOptimal = aD × reserveB / reserveA`; if `amountBOptimal ≤ bD` it
pulls `(aD, amountBOptimal)` requiring `amountBOptimal ≥ bMin`, otherwise
it computes `amountAOptimal = bD × reserveA / reserveB` and pulls
`(amountAOptimal, bD)` requiring `amountAOptimal ≤ aD` and
`amountAOptimal ≥ aMin`; it then mints
`min(amountA × totalShares / reserveA, amountB × totalShares / reserveB)`
shares and fails with the no-liquidity-minted error when that value is
zero. -/
theorem c4_add_liquidity_funded_amended (s : PoolState) (caller : Addr)
    (aD bD aMin bMin : Nat) (hent : s.entered = false) (hT : 0 < s.totalShares)
    (hA : 0 < s.balA POOL) (hB : 0 < s.balB POOL) (haD : 0 < aD) (hbD : 0 < bD) :
    (aD * s.balB POOL / s.balA POOL ≤ bD →
      (aD * s.balB POOL / s.balA POOL < bMin →
        addLiquidity caller aD bD aMin bMin s = .error .insufficientBAmount)
      ∧ (bMin ≤ aD * s.balB POOL / s.balA POOL →
          (minNat (aD * s.totalShares / s.balA POOL)
              (aD * s.balB POOL / s.balA POOL * s.totalShares / s.balB POOL) = 0 →
            addLiquidity caller aD bD aMin bMin s = .error .noLiquidityMinted)
          ∧ (∀ (liq : Nat) (s' : PoolState),
              addLiquidity caller aD bD aMin bMin s = .ok (liq, s') →
              liq = minNat (aD * s.totalShares / s.balA POOL)
                      (aD * s.balB POOL / s.balA POOL * s.totalShares / s.balB POOL)
              ∧ s'.totalShares = s.totalShares + liq
              ∧ s'.shares caller = s.shares caller + liq
              ∧ (caller ≠ POOL →
                  s'.balA POOL = s.balA POOL + aD
                  ∧ s'.balB POOL = s.balB POOL + aD * s.balB POOL / s.balA POOL))))
    ∧ (bD < aD * s.balB POOL / s.balA POOL →
      (¬ (bD * s.balA POOL / s.balB POOL ≤ aD ∧ aMin ≤ bD * s.balA POOL / s.balB POOL) →
        addLiquidity caller aD bD aMin bMin s = .error .insufficientAAmount)
      ∧ (bD * s.balA POOL / s.balB POOL ≤ aD →
         aMin ≤ bD * s.balA POOL / s.balB POOL →
          (minNat (bD * s.balA POOL / s.balB POOL * s.totalShares / s.balA POOL)
              (bD * s.totalShares / s.balB POOL) = 0 →
            addLiquidity caller aD bD aMin bMin s = .error .noLiquidityMinted)
          ∧ (∀ (liq : Nat) (s' : PoolState),
              addLiquidity caller aD bD aMin bMin s = .ok (liq, s') →
              liq = minNat (bD * s.balA POOL / s.balB POOL * s.totalShares / s.balA POOL)
                      (bD * s.totalShares / s.balB POOL)
              ∧ s'.totalShares = s.totalShares + liq
              ∧ s'.shares caller = s.shares caller + liq
              ∧ (caller ≠ POOL →
                  s'.balA POOL = s.balA POOL + bD * s.balA POOL / s.balB POOL
                  ∧ s'.balB POOL = s.balB POOL + bD)))) := by
  have h1 : 0 < (update { s with entered := true }).reserveA := hA
  have h2 : 0 < (update { s with entered := true }).reserveB := hB
  have hrw : addLiquidityStep aD bD aMin bMin (update { s with entered := true }) =
      (if aD * s.balB POOL / s.balA POOL ≤ bD then
        if bMin ≤ aD * s.balB POOL / s.balA POOL then
          .ok (minNat (aD * s.totalShares / s.balA POOL)
                 (aD * s.balB POOL / s.balA POOL * s.totalShares / s.balB POOL),
               aD, aD * s.balB POOL / s.balA POOL)
        else .error .insufficientBAmount
      else
        if bD * s.balA POOL / s.balB POOL ≤ aD ∧ aMin ≤ bD * s.balA POOL / s.balB POOL then
          .ok (minNat (bD * s.balA POOL / s.balB POOL * s.totalShares / s.balA POOL)
                 (bD * s.totalShares / s.balB POOL),
               bD * s.balA POOL / s.balB POOL, bD)
        else .error .insufficientAAmount) :=
    addLiquidityStep_funded h1 h2 haD hbD
  constructor
  · intro hbr
    constructor
    · intro hlow
      unfold addLiquidity
      apply withGuard_error_intro hent
      apply addLiquidityCore_step_error
      rw [hrw, if_pos hbr, if_neg (by omega)]
    · intro hbmin
      constructor
      · intro hz
        unfold addLiquidity
        apply withGuard_error_intro hent
        have hstep : addLiquidityStep aD bD aMin bMin (update { s with entered := true })
            = .ok (0, aD, aD * s.balB POOL / s.balA POOL) := by
          rw [hrw, if_pos hbr, if_pos hbmin, hz]
        exact addLiquidityCore_no_mint hstep
      · intro liq s' hok
        unfold addLiquidity at hok
        obtain ⟨-, t, hbdy, hs'⟩ := withGuard_ok_elim hok
        obtain ⟨hpos, amtA, amtB, s2, s3, hstep, htA, htB, ht⟩ := addLiquidityCore_ok_elim hbdy
        rw [hrw, if_pos hbr, if_pos hbmin] at hstep
        simp only [Except.ok.injEq, Prod.mk.injEq] at hstep
        obtain ⟨hliq, hamtA, hamtB⟩ := hstep
        obtain ⟨-, hs2⟩ := transferA_ok_elim htA
        obtain ⟨-, hs3⟩ := transferB_ok_elim htB
        subst hamtA
        subst hamtB
        subst hs2
        subst hs3
        subst ht
        subst hs'
        refine ⟨hliq.symm, rfl, ?_, ?_⟩
        · show (if caller = caller then s.shares caller + liq else s.shares caller)
            = s.shares caller + liq
          simp
        · intro hcal
          constructor
          · show updBal s.balA caller POOL aD POOL = s.balA POOL + aD
            exact updBal_dst (Ne.symm hcal)
          · show updBal s.balB caller POOL (aD * s.balB POOL / s.balA POOL) POOL
              = s.balB POOL + aD * s.balB POOL / s.balA POOL
            exact updBal_dst (Ne.symm hcal)
  · intro hbr
    constructor
    · intro hbad
      unfold addLiquidity
      apply withGuard_error_intro hent
      apply addLiquidityCore_step_error
      rw [hrw, if_neg (by omega), if_neg hbad]
    · intro haOptLe haOptMin
      constructor
      · intro hz
        unfold addLiquidity
        apply withGuard_error_intro hent
        have hstep : addLiquidityStep aD bD aMin bMin (update { s with entered := true })
            = .ok (0, bD * s.balA POOL / s.balB POOL, bD) := by
          rw [hrw, if_neg (by omega), if_pos ⟨haOptLe, haOptMin⟩, hz]
        exact addLiquidityCore_no_mint hstep
      · intro liq s' hok
        unfold addLiquidity at hok
        obtain ⟨-, t, hbdy, hs'⟩ := withGuard_ok_elim hok
        obtain ⟨hpos, amtA, amtB, s2, s3, hstep, htA, htB, ht⟩ := addLiquidityCore_ok_elim hbdy
        rw [hrw, if_neg (by omega), if_pos ⟨haOptLe, haOptMin⟩] at hstep
        simp only [Except.ok.injEq, Prod.mk.injEq] at hstep
        obtain ⟨hliq, hamtA, hamtB⟩ := hstep
        obtain ⟨-, hs2⟩ := transferA_ok_elim htA
        obtain ⟨-, hs3⟩ := transferB_ok_elim htB
        subst hamtA
        subst hamtB
        subst hs2
        subst hs3
        subst ht
        subst hs'
        refine ⟨hliq.symm, rfl, ?_, ?_⟩
        · show (if caller = caller then s.shares caller + liq else s.shares caller)
            = s.shares caller + liq
          simp
        · intro hcal
          constructor
          · show updBal s.balA caller POOL (bD * s.balA POOL / s.balB POOL) POOL
              = s.balA POOL + bD * s.balA POOL / s.balB POOL
            exact updBal_dst (Ne.symm hcal)
          · show updBal s.balB caller POOL bD POOL = s.balB POOL + bD
            exact updBal_dst (Ne.symm hcal)

/-- Witness for the amended C4: a funded pool with reserves `(1, 1)` and one
share; `addLiquidity(1, 2, 0, 5)` quotes `amountBOptimal = 1 ≤ 2` but the
caller's `amountBMin = 5` exceeds it, so the call fails with the
insufficient-B-amount error. -/
theorem c4_add_liquidity_funded_amended_witness :
    addLiquidity 1 1 2 0 5 (mkState 1 1 100 100 0 1) = .error .insufficientBAmount :=
  ((c4_add_liquidity_funded_amended (mkState 1 1 100 100 0 1) 1 1 2 0 5
    rfl (by decide) (by decide) (by decide) (by decide) (by decide)).1
    (by decide)).1 (by decide)

end SimplePool

namespace SimplePool

/-- C7.  Reserve/balance synchronisation: (i) after every successfully
completed mutating operation the cached `reserveA`/`reserveB` equal the
pool's true token-ledger balances (each operation ends with `_update()`,
and the subsequent share mint/burn touches no token balance); and (ii) each
operation's outcome is entirely independent of the cached reserves it
starts from — the leading `_update()` overwrites them with the true
balances before any calculation — so drift introduced by direct token
transfers to the pool never survives an operation boundary. -/
theorem c7_reserves_match_balances :
    (∀ (s : PoolState) (caller : Addr) (aD bD aMin bMin liq : Nat) (s' : PoolState),
        addLiquidity caller aD bD aMin bMin s = .ok (liq, s') →
        s'.reserveA = s'.balA POOL ∧ s'.reserveB = s'.balB POOL)
    ∧ (∀ (s : PoolState) (caller : Addr) (sh aMin bMin : Nat) (recipient : Addr)
        (a b : Nat) (s' : PoolState),
        removeLiquidity caller sh aMin bMin recipient s = .ok ((a, b), s') →
        s'.reserveA = s'.balA POOL ∧ s'.reserveB = s'.balB POOL)
    ∧ (∀ (s : PoolState) (caller : Addr) (aIn bMin : Nat) (recipient : Addr)
        (out : Nat) (s' : PoolState),
        swapAToB caller aIn bMin recipient s = .ok (out, s') →
        s'.reserveA = s'.balA POOL ∧ s'.reserveB = s'.balB POOL)
    ∧ (∀ (s : PoolState) (caller : Addr) (bIn aMin : Nat) (recipient : Addr)
        (out : Nat) (s' : PoolState),
        swapBToA caller bIn aMin recipient s = .ok (out, s') →
        s'.reserveA = s'.balA POOL ∧ s'.reserveB = s'.balB POOL)
    ∧ (∀ (s : PoolState) (x y : Nat) (caller : Addr) (aD bD aMin bMin : Nat),
        addLiquidity caller aD bD aMin bMin { s with reserveA := x, reserveB := y }
          = addLiquidity caller aD bD aMin bMin s)
    ∧ (∀ (s : PoolState) (x y : Nat) (caller : Addr) (sh aMin bMin : Nat)
        (recipient : Addr),
        removeLiquidity caller sh aMin bMin recipient { s with reserveA := x, reserveB := y }
          = removeLiquidity caller sh aMin bMin recipient s)
    ∧ (∀ (s : PoolState) (x y : Nat) (caller : Addr) (aIn bMin : Nat) (recipient : Addr),
        swapAToB caller aIn bMin recipient { s with reserveA := x, reserveB := y }
          = swapAToB caller aIn bMin recipient s)
    ∧ (∀ (s : PoolState) (x y : Nat) (caller : Addr) (bIn aMin : Nat) (recipient : Addr),
        swapBToA caller bIn aMin recipient { s with reserveA := x, reserveB := y }
          = swapBToA caller bIn aMin recipient s) := by
  refine ⟨?_, ?_, ?_, ?_, ?_, ?_, ?_, ?_⟩
  · intro s caller aD bD aMin bMin liq s' h
    unfold addLiquidity at h
    obtain ⟨-, t, hb, hs'⟩ := withGuard_ok_elim h
    obtain ⟨-, amtA, amtB, s2, s3, -, -, -, ht⟩ := addLiquidityCore_ok_elim hb
    subst ht
    subst hs'
    exact ⟨rfl, rfl⟩
  · intro s caller sh aMin bMin recipient a b s' h
    unfold removeLiquidity at h
    obtain ⟨-, t, hb, hs'⟩ := withGuard_ok_elim h
    obtain ⟨-, -, -, -, -, -, -, s2, s3, s4, -, -, -, ht⟩ := removeLiquidityCore_ok_elim hb
    subst ht
    subst hs'
    exact ⟨rfl, rfl⟩
  · intro s caller aIn bMin recipient out s' h
    unfold swapAToB at h
    obtain ⟨-, t, hb, hs'⟩ := withGuard_ok_elim h
    obtain ⟨-, h1, h2⟩ := swapAToBCore_ok_elim hb
    subst hs'
    exact ⟨h1, h2⟩
  · intro s caller bIn aMin recipient out s' h
    unfold swapBToA at h
    obtain ⟨-, t, hb, hs'⟩ := withGuard_ok_elim h
    obtain ⟨-, h1, h2⟩ := swapBToACore_ok_elim hb
    subst hs'
    exact ⟨h1, h2⟩
  · intro s x y caller aD bD aMin bMin
    rfl
  · intro s x y caller sh aMin bMin recipient
    rfl
  · intro s x y caller aIn bMin recipient
    rfl
  · intro s x y caller bIn aMin recipient
    rfl

/-- Witness for C7: the concrete swap `c7Run` ends with reserves equal to
the pool's true balances. -/
theorem c7_reserves_match_balances_witness :
    c7End.reserveA = c7End.balA POOL ∧ c7End.reserveB = c7End.balB POOL :=
  c7_reserves_match_balances.2.2.1 (mkState 100 200 1000 0 0 0) 1 10 0 2 c7Out c7End
    (by rfl)

/-- C8.  The reentrancy lock (OpenZeppelin `nonReentrant`, modelled from
the spec as the `entered` flag): every mutating operation rejects any call
made while the flag is held, the flag survives every intermediate step of
an operation's body (token transfers, share mint/burn, reserve resyncs —
so a nested call triggered from inside the external token ledger sees the
flag set and is rejected), and a completed operation releases the flag. -/
theorem c8_reentrancy_guard :
    (∀ (s : PoolState) (caller : Addr) (aD bD aMin bMin : Nat), s.entered = true →
        addLiquidity caller aD bD aMin bMin s = .error .reentrancy)
    ∧ (∀ (s : PoolState) (caller : Addr) (sh aMin bMin : Nat) (recipient : Addr),
        s.entered = true →
        removeLiquidity caller sh aMin bMin recipient s = .error .reentrancy)
    ∧ (∀ (s : PoolState) (caller : Addr) (aIn bMin : Nat) (recipient : Addr),
        s.entered = true → swapAToB caller aIn bMin recipient s = .error .reentrancy)
    ∧ (∀ (s : PoolState) (caller : Addr) (bIn aMin : Nat) (recipient : Addr),
        s.entered = true → swapBToA caller bIn aMin recipient s = .error .reentrancy)
    ∧ (∀ (s t : PoolState) (src dst : Addr) (amt : Nat),
        transferA src dst amt s = .ok t → t.entered = s.entered)
    ∧ (∀ (s t : PoolState) (src dst : Addr) (amt : Nat),
        transferB src dst amt s = .ok t → t.entered = s.entered)
    ∧ (∀ (s t : PoolState) (src : Addr) (amt : Nat),
        burnShares src amt s = .ok t → t.entered = s.entered)
    ∧ (∀ s : PoolState, (update s).entered = s.entered)
    ∧ (∀ (s : PoolState) (dst : Addr) (amt : Nat),
        (mintShares dst amt s).entered = s.entered)
    ∧ (∀ (s : PoolState) (caller : Addr) (aD bD aMin bMin liq : Nat) (s' : PoolState),
        addLiquidity caller aD bD aMin bMin s = .ok (liq, s') → s'.entered = false)
    ∧ (∀ (s : PoolState) (caller : Addr) (sh aMin bMin : Nat) (recipient : Addr)
        (a b : Nat) (s' : PoolState),
        removeLiquidity caller sh aMin bMin recipient s = .ok ((a, b), s') →
        s'.entered = false)
    ∧ (∀ (s : PoolState) (caller : Addr) (aIn bMin : Nat) (recipient : Addr)
        (out : Nat) (s' : PoolState),
        swapAToB caller aIn bMin recipient s = .ok (out, s') → s'.entered = false)
    ∧ (∀ (s : PoolState) (caller : Addr) (bIn aMin : Nat) (recipient : Addr)
        (out : Nat) (s' : PoolState),
        swapBToA caller bIn aMin recipient s = .ok (out, s') → s'.entered = false) := by
  refine ⟨?_, ?_, ?_, ?_, ?_, ?_, ?_, ?_, ?_, ?_, ?_, ?_, ?_⟩
  · intro s caller aD bD aMin bMin h
    exact withGuard_entered h
  · intro s caller sh aMin bMin recipient h
    exact withGuard_entered h
  · intro s caller aIn bMin recipient h
    exact withGuard_entered h
  · intro s caller bIn aMin recipient h
    exact withGuard_entered h
  · intro s t src dst amt h
    obtain ⟨-, ht⟩ := transferA_ok_elim h
    subst ht
    rfl
  · intro s t src dst amt h
    obtain ⟨-, ht⟩ := transferB_ok_elim h
    subst ht
    rfl
  · intro s t src amt h
    obtain ⟨-, ht⟩ := burnShares_ok_elim h
    subst ht
    rfl
  · intro s
    rfl
  · intro s dst amt
    rfl
  · intro s caller aD bD aMin bMin liq s' h
    unfold addLiquidity at h
    obtain ⟨-, t, -, hs'⟩ := withGuard_ok_elim h
    subst hs'
    rfl
  · intro s caller sh aMin bMin recipient a b s' h
    unfold removeLiquidity at h
    obtain ⟨-, t, -, hs'⟩ := withGuard_ok_elim h
    subst hs'
    rfl
  · intro s caller aIn bMin recipient out s' h
    unfold swapAToB at h
    obtain ⟨-, t, -, hs'⟩ := withGuard_ok_elim h
    subst hs'
    rfl
  · intro s caller bIn aMin recipient out s' h
    unfold swapBToA at h
    obtain ⟨-, t, -, hs'⟩ := withGuard_ok_elim h
    subst hs'
    rfl

/-- Witness for C8: against a pool whose guard is currently held, a nested
`addLiquidity` call is rejected with the reentrancy error. -/
theorem c8_reentrancy_guard_witness :
    addLiquidity 1 1 1 0 0 lockedSt = .error .reentrancy :=
  c8_reentrancy_guard.1 lockedSt 1 1 1 0 0 rfl

end SimplePool

namespace PoolFactory

open SimplePool (Addr)

theorem canon_symm (tA tB : Nat) :
    canon0 tB tA = canon0 tA tB ∧ canon1 tB tA = canon1 tA tB := by
  constructor
  · unfold canon0
    split
    · rename_i h1
      split
      · rename_i h2
        exact absurd h2 (Nat.lt_asymm h1)
      · rfl
    · rename_i h1
      split
      · rfl
      · rename_i h2
        exact Nat.le_antisymm (Nat.not_lt.mp h1) (Nat.not_lt.mp h2)
  · unfold canon1
    split
    · rename_i h1
      split
      · rename_i h2
        exact absurd h2 (Nat.lt_asymm h1)
      · rfl
    · rename_i h1
      split
      · rfl
      · rename_i h2
        exact Nat.le_antisymm (Nat.not_lt.mp h2) (Nat.not_lt.mp h1)

/-- C6.  Registry uniqueness per unordered pair: once `createPool(X, Y)`
has succeeded (returning pool `p` and registry `r'`), both
`createPool(Y, X)` and `createPool(X, Y)` on `r'` fail with the
pool-exists error (an error return carries no state: the registry is
unchanged, matching the EVM revert), `getPool` returns `p` under either
argument order, `p` is not the zero address, and `getPool` is
order-insensitive on every registry, returning an address (zero = "none")
rather than an error. -/
theorem c6_registry_unique_pool (X Y : Addr) (r : Registry) (p : Addr) (r' : Registry)
    (h : createPool X Y r = .ok (p, r')) :
    createPool Y X r' = .error .poolExists
    ∧ createPool X Y r' = .error .poolExists
    ∧ getPool X Y r' = p ∧ getPool Y X r' = p ∧ p ≠ 0
    ∧ (∀ q : Registry, getPool X Y q = getPool Y X q) := by
  unfold createPool at h
  split at h
  · simp at h
  · rename_i hne
    split at h
    · simp at h
    · rename_i hz
      split at h
      · simp at h
      · rename_i hempty
        simp only [Except.ok.injEq, Prod.mk.injEq] at h
        obtain ⟨hp, hr⟩ := h
        subst hp
        subst hr
        have hc := canon_symm X Y
        have hYX : Y ≠ X := fun hh => hne hh.symm
        have hz' : ¬ (Y = 0 ∨ X = 0) := by tauto
        refine ⟨?_, ?_, ?_, ?_, Nat.succ_ne_zero r.nextPool, ?_⟩
        · unfold createPool
          rw [if_neg hYX, if_neg hz', hc.1, hc.2]
          simp
        · unfold createPool
          rw [if_neg hne, if_neg hz]
          simp
        · unfold getPool
          simp
        · unfold getPool
          rw [hc.1, hc.2]
          simp
        · intro q
          unfold getPool
          rw [hc.1, hc.2]

/-- Witness for C6: on the empty registry, `createPool(1, 2)` succeeds and
then `createPool(2, 1)` is rejected; lookup is order-insensitive. -/
theorem c6_registry_unique_pool_witness :
    createPool 2 1 reg1 = .error .poolExists
    ∧ getPool 1 2 reg1 = pool1 ∧ getPool 2 1 reg1 = pool1 := by
  have h := c6_registry_unique_pool 1 2 reg0 pool1 reg1 (by rfl)
  exact ⟨h.1, h.2.2.1, h.2.2.2.1⟩

end PoolFactory
